import Mathlib

/-!
Shallow embedding of the core logic of
`src/test-gmail-skill/skills/gmail/scripts/gmail_search.py`: the credential
lifecycle (scope selection, token persistence, refresh versus full
re-authorization), message body and attachment extraction from the nested MIME
part tree, reply-threading derivation, outgoing message construction,
recipient validation, and attachment filename-collision resolution.

External library calls are modelled explicitly: the base64 URL-safe decoder
and the UTF-8 "replace" decoder are implemented below; remote-service and
OAuth exchanges are supplied as explicit outcome parameters, and the commands
return the list of remote mail-service calls they issue.
-/

/-- Six-bit value of a base64 alphabet character. Mirrors Python
`base64.urlsafe_b64decode`, which accepts both the URL-safe (`-`, `_`) and the
standard (`+`, `/`) alphabet characters and silently discards every other
character (including padding). -/
def b64Val (c : Char) : Option Nat :=
  if 'A' ≤ c ∧ c ≤ 'Z' then some (c.toNat - 'A'.toNat)
  else if 'a' ≤ c ∧ c ≤ 'z' then some (c.toNat - 'a'.toNat + 26)
  else if '0' ≤ c ∧ c ≤ '9' then some (c.toNat - '0'.toNat + 52)
  else if c = '-' ∨ c = '+' then some 62
  else if c = '_' ∨ c = '/' then some 63
  else none

/-- Reassemble bytes from a list of six-bit values: four values give three
bytes, a two- or three-value tail gives one or two bytes. -/
def b64Groups : List Nat → List Nat
  | a :: b :: c :: d :: rest =>
      (a * 4 + b / 16) :: ((b % 16) * 16 + c / 4) :: ((c % 4) * 64 + d) :: b64Groups rest
  | [a, b, c] => [a * 4 + b / 16, (b % 16) * 16 + c / 4]
  | [a, b] => [a * 4 + b / 16]
  | _ => []

/-- Byte list produced by `base64.urlsafe_b64decode` on the characters of
`s`. -/
def urlsafe_b64decode (s : String) : List Nat :=
  b64Groups (s.data.filterMap b64Val)

/-- Continuation byte test for UTF-8. -/
def utf8Cont (b : Nat) : Bool := 0x80 ≤ b && b ≤ 0xBF

/-- Admissible second byte for a three-byte UTF-8 sequence with lead `b`. -/
def utf8Second3Ok (b b2 : Nat) : Bool :=
  if b = 0xE0 then 0xA0 ≤ b2 && b2 ≤ 0xBF
  else if b = 0xED then 0x80 ≤ b2 && b2 ≤ 0x9F
  else utf8Cont b2

/-- Admissible second byte for a four-byte UTF-8 sequence with lead `b`. -/
def utf8Second4Ok (b b2 : Nat) : Bool :=
  if b = 0xF0 then 0x90 ≤ b2 && b2 ≤ 0xBF
  else if b = 0xF4 then 0x80 ≤ b2 && b2 ≤ 0x8F
  else utf8Cont b2

/-- Decoder for UTF-8 with `errors="replace"`: every maximal ill-formed
subsequence becomes one U+FFFD. The first argument is fuel; one unit is
spent per decoded character, so the byte count is always enough. -/
def utf8DecodeFuel : Nat → List Nat → List Char
  | 0, _ => []
  | _ + 1, [] => []
  | fuel + 1, b :: rest =>
      if b < 0x80 then Char.ofNat b :: utf8DecodeFuel fuel rest
      else if 0xC2 ≤ b && b ≤ 0xDF then
        match rest with
        | [] => ['�']
        | b2 :: rest2 =>
            if utf8Cont b2 then
              Char.ofNat ((b - 0xC0) * 64 + (b2 - 0x80)) :: utf8DecodeFuel fuel rest2
            else '�' :: utf8DecodeFuel fuel rest
      else if 0xE0 ≤ b && b ≤ 0xEF then
        match rest with
        | [] => ['�']
        | b2 :: rest2 =>
            if utf8Second3Ok b b2 then
              match rest2 with
              | [] => ['�']
              | b3 :: rest3 =>
                  if utf8Cont b3 then
                    Char.ofNat (((b - 0xE0) * 64 + (b2 - 0x80)) * 64 + (b3 - 0x80)) ::
                      utf8DecodeFuel fuel rest3
                  else '�' :: utf8DecodeFuel fuel rest2
            else '�' :: utf8DecodeFuel fuel rest
      else if 0xF0 ≤ b && b ≤ 0xF4 then
        match rest with
        | [] => ['�']
        | b2 :: rest2 =>
            if utf8Second4Ok b b2 then
              match rest2 with
              | [] => ['�']
              | b3 :: rest3 =>
                  if utf8Cont b3 then
                    match rest3 with
                    | [] => ['�']
                    | b4 :: rest4 =>
                        if utf8Cont b4 then
                          Char.ofNat ((((b - 0xF0) * 64 + (b2 - 0x80)) * 64 + (b3 - 0x80)) * 64
                              + (b4 - 0x80)) :: utf8DecodeFuel fuel rest4
                        else '�' :: utf8DecodeFuel fuel rest3
                  else '�' :: utf8DecodeFuel fuel rest2
            else '�' :: utf8DecodeFuel fuel rest
      else '�' :: utf8DecodeFuel fuel rest

/-- Decode the way `extract_body` does:
`base64.urlsafe_b64decode(data).decode("utf-8", errors="replace")`. -/
def decodeData (s : String) : String :=
  String.mk (utf8DecodeFuel (urlsafe_b64decode s).length (urlsafe_b64decode s))

/-- Optional `body` sub-dictionary of a Gmail API message part: the payload
data, the byte size and the attachment reference, each possibly absent. -/
structure BodyField where
  data : Option String
  size : Option Nat
  attachmentId : Option String
deriving DecidableEq

/-- One node of the nested `payload` part tree of a fetched message.
`leaf` models a part dictionary without a `parts` key; `node` models one
whose `parts` key is present (possibly holding an empty list) — the source
distinguishes the two with `"parts" in part`. -/
inductive MessagePart where
  | leaf (mimeType : Option String) (filename : Option String) (body : Option BodyField)
  | node (mimeType : Option String) (filename : Option String) (body : Option BodyField)
      (parts : List MessagePart)

/-- Value of `part.get("mimeType")`. -/
def MessagePart.mimeType : MessagePart → Option String
  | .leaf mt _ _ => mt
  | .node mt _ _ _ => mt

/-- Value of `part.get("filename")`. -/
def MessagePart.filename : MessagePart → Option String
  | .leaf _ fn _ => fn
  | .node _ fn _ _ => fn

/-- Value of `part.get("body")`. -/
def MessagePart.body : MessagePart → Option BodyField
  | .leaf _ _ b => b
  | .node _ _ b _ => b

/-- Truthiness of `payload["body"].get("data")` when the `body` key is
present: the data field exists and is a non-empty string. -/
def dataTruthyO : Option BodyField → Bool
  | some bf =>
      match bf.data with
      | some d => !(d == "")
      | none => false
  | none => false

/-- Truthiness of `"body" in part and part["body"].get("data")`. -/
def dataTruthy (p : MessagePart) : Bool := dataTruthyO p.body

/-- Value of `part["body"]["data"]` as an option. -/
def MessagePart.bodyData (p : MessagePart) : Option String :=
  match p.body with
  | some bf => bf.data
  | none => none

mutual

/-- Lean model of `extract_body(payload)`: return the node's own decoded
payload if present, else walk the `parts` list. -/
def extract_body : MessagePart → String
  | .leaf _ _ b =>
      match b with
      | some bf =>
          match bf.data with
          | some d => if d = "" then "" else decodeData d
          | none => ""
      | none => ""
  | .node _ _ b parts =>
      match b with
      | some bf =>
          match bf.data with
          | some d => if d = "" then extractBodyFromParts parts else decodeData d
          | none => extractBodyFromParts parts
      | none => extractBodyFromParts parts

/-- Lean model of the `for part in payload["parts"]` loop inside
`extract_body`: per child, first the plain-text check, then — only when the
child itself has a `parts` key — the recursion, keeping a non-empty result. -/
def extractBodyFromParts : List MessagePart → String
  | [] => ""
  | part :: rest =>
      if part.mimeType = some "text/plain" ∧ dataTruthy part = true then
        decodeData (part.bodyData.getD "")
      else
        match part with
        | .node mt fn b ps =>
            let body := extract_body (.node mt fn b ps)
            if body = "" then extractBodyFromParts rest else body
        | .leaf _ _ _ => extractBodyFromParts rest

end

/-- Attachment metadata record built by `extract_attachment_info`. -/
structure AttachmentInfo where
  filename : String
  mime_type : String
  size : Nat
  attachment_id : Option String
deriving DecidableEq

/-- Truthiness of `part.get("filename")`: present and non-empty. -/
def filenameTruthy (p : MessagePart) : Bool :=
  match p.filename with
  | some f => !(f == "")
  | none => false

/-- The dictionary appended by `extract_attachment_info` for one part. -/
def attachmentOf (p : MessagePart) : AttachmentInfo :=
  { filename := p.filename.getD ""
    mime_type := p.mimeType.getD ""
    size := (match p.body with | some bf => bf.size.getD 0 | none => 0)
    attachment_id := (match p.body with | some bf => bf.attachmentId | none => none) }

mutual

/-- Lean model of `extract_attachment_info(payload)` (the inner `recurse`):
record the node itself when its filename is truthy, then visit children. -/
def extract_attachment_info : MessagePart → List AttachmentInfo
  | .leaf mt fn b =>
      if filenameTruthy (.leaf mt fn b) then [attachmentOf (.leaf mt fn b)] else []
  | .node mt fn b parts =>
      (if filenameTruthy (.node mt fn b parts) then [attachmentOf (.node mt fn b parts)]
       else []) ++ extractAttachmentsFromParts parts

/-- The `for p in part["parts"]` loop inside `extract_attachment_info`. -/
def extractAttachmentsFromParts : List MessagePart → List AttachmentInfo
  | [] => []
  | p :: rest => extract_attachment_info p ++ extractAttachmentsFromParts rest

end

mutual

/-- Depth-first pre-order listing of all nodes of a part tree. -/
def preorderNodes : MessagePart → List MessagePart
  | .leaf mt fn b => [.leaf mt fn b]
  | .node mt fn b parts => .node mt fn b parts :: preorderList parts

/-- Pre-order listing of a forest, in the given order. -/
def preorderList : List MessagePart → List MessagePart
  | [] => []
  | p :: rest => preorderNodes p ++ preorderList rest

end

/-- Python exceptions that can escape the modelled functions. -/
inductive PyErr where
  | valueError (msg : String)
  | keyError (key : String)
  | refreshError (msg : String)
deriving DecidableEq

/-- Loaded OAuth credential bundle, as read through the attributes the script
uses: `creds.valid`, `creds.expired`, `creds.refresh_token` (truthiness of the
refresh token), plus the access token string to tell bundles apart. In the
real library `valid` implies `not expired`; the fields are kept independent
here and that invariant appears as a hypothesis where needed. -/
structure Creds where
  token : String
  valid : Bool
  expired : Bool
  refresh_token : Bool
deriving DecidableEq

/-- Persisted state of the credential manager: contents of `scope.txt` and of
`token.pickle`, each `none` when the file does not exist. -/
structure PersistState where
  scopeFile : Option String
  tokenFile : Option Creds
deriving DecidableEq

/-- The `SCOPES_MAP` dictionary; `none` models a missing key. -/
def SCOPES_MAP : String → Option (List String)
  | "readonly" => some ["https://www.googleapis.com/auth/gmail.readonly"]
  | "modify" => some ["https://www.googleapis.com/auth/gmail.readonly",
      "https://www.googleapis.com/auth/gmail.modify"]
  | "full" => some ["https://mail.google.com/"]
  | _ => none

/-- Default scope used when `scope.txt` is absent. -/
def DEFAULT_SCOPE : String := "modify"

/-- Lean model of `get_current_scope()`. -/
def get_current_scope (st : PersistState) : String :=
  st.scopeFile.getD DEFAULT_SCOPE

/-- Lean model of `set_scope(scope)`: reject unknown scopes with `ValueError`
before touching any state; otherwise persist the scope and delete the token
file. Returns the outcome together with the resulting persisted state. -/
def set_scope (scope : String) (st : PersistState) : Except PyErr Unit × PersistState :=
  if (SCOPES_MAP scope).isSome then
    (Except.ok (), { scopeFile := some scope, tokenFile := none })
  else
    (Except.error (PyErr.valueError ("Invalid scope: " ++ scope)), st)

deriving instance DecidableEq for Except

/-- Outcomes of the external OAuth exchanges, supplied by the environment:
what `creds.refresh(Request())` would do (return refreshed credentials or
raise), and what the full authorization flow would produce (`none` models the
manual flow aborting and returning `None`). Both interactive strategies of
the full flow are folded into `flowOutcome`. -/
structure AuthEnv where
  clientSecretsExists : Bool
  refreshOutcome : Except PyErr Creds
  flowOutcome : Option Creds
deriving DecidableEq

/-- External authorization exchanges performed during `get_credentials`. -/
inductive AuthCall where
  | refresh
  | fullFlow
deriving DecidableEq

/-- Result of a `get_credentials` run: the returned value (or the propagated
exception), the persisted state afterwards, and the exchanges performed. -/
structure AuthResult where
  result : Except PyErr (Option Creds)
  state : PersistState
  calls : List AuthCall
deriving DecidableEq

/-- Lean model of the full re-authorization tail of `get_credentials`: without
`credentials.json` return `None`; otherwise run the flow, and persist the new
bundle only when the flow produced one (a manual-flow abort returns `None`
before the persist step). -/
def fullReauth (env : AuthEnv) (st : PersistState) : AuthResult :=
  if env.clientSecretsExists = false then ⟨Except.ok none, st, []⟩
  else
    match env.flowOutcome with
    | none => ⟨Except.ok none, st, [AuthCall.fullFlow]⟩
    | some c => ⟨Except.ok (some c), { st with tokenFile := some c }, [AuthCall.fullFlow]⟩

/-- Lean model of `get_credentials(manual)`: look up the scope (a `KeyError`
escapes on an unknown persisted scope), load the token, return it if valid,
refresh it if expired with a refresh token (persisting on success, and
propagating the exception on failure — there is no try/except around
`creds.refresh`), otherwise fall into full re-authorization. -/
def get_credentials (env : AuthEnv) (st : PersistState) : AuthResult :=
  match SCOPES_MAP (get_current_scope st) with
  | none => ⟨Except.error (PyErr.keyError (get_current_scope st)), st, []⟩
  | some _ =>
      match st.tokenFile with
      | some c =>
          if c.valid then ⟨Except.ok (some c), st, []⟩
          else if c.expired && c.refresh_token then
            match env.refreshOutcome with
            | Except.ok c2 =>
                ⟨Except.ok (some c2), { st with tokenFile := some c2 }, [AuthCall.refresh]⟩
            | Except.error e => ⟨Except.error e, st, [AuthCall.refresh]⟩
          else fullReauth env st
      | none => fullReauth env st

/-- Characters admitted by `[a-zA-Z0-9._%+-]` (the local part of the
recipient regex in `validate_email`). -/
def isLocalChar (c : Char) : Bool :=
  c.isAlpha || c.isDigit || c == '.' || c == '_' || c == '%' || c == '+' || c == '-'

/-- Characters admitted by `[a-zA-Z0-9.-]` (the domain part). -/
def isDomainChar (c : Char) : Bool :=
  c.isAlpha || c.isDigit || c == '.' || c == '-'

/-- Final `[a-zA-Z]` run of length at least two, anchored at the end. -/
def isTld (t : List Char) : Bool :=
  2 ≤ t.length && t.all (fun c => c.isAlpha)

/-- Decision procedure for the domain side `[a-zA-Z0-9.-]+\.[a-zA-Z]`
followed by `\x7b2,\x7d$`: some dot splits the input into a non-empty run of
domain characters and a trailing alphabetic run of length at least two. The
flag records whether at least one domain character precedes the current
position. -/
def domainMatch (seenNonEmpty : Bool) : List Char → Bool
  | [] => false
  | c :: rest =>
      (c == '.' && seenNonEmpty && isTld rest)
      || (isDomainChar c && domainMatch true rest)

/-- Consume local-part characters until the `@`; `none` when a character
outside the class (or the end) is reached first. Returns the domain side. -/
def afterLocal : List Char → Option (List Char)
  | [] => none
  | c :: rest =>
      if c == '@' then some rest
      else if isLocalChar c then afterLocal rest
      else none

/-- Anchored match of `^[a-zA-Z0-9._%+-]+@[a-zA-Z0-9.-]+\.[a-zA-Z]` with a
final `\x7b2,\x7d$` against a character list. -/
def emailMatch : List Char → Bool
  | [] => false
  | c :: rest =>
      isLocalChar c &&
        (match afterLocal rest with
         | some dom => domainMatch false dom
         | none => false)

/-- Whitespace trimming as in `str.strip()` (restricted to ASCII whitespace,
the only kind the tool ever feeds it). -/
def trimChars (cs : List Char) : List Char :=
  ((cs.dropWhile Char.isWhitespace).reverse.dropWhile Char.isWhitespace).reverse

/-- Lean model of `validate_email(email)`. -/
def validate_email (email : String) : Bool :=
  emailMatch (trimChars email.data)


/-- Wire-ready envelope built by `create_message`, modelled by its semantic
fields; the MIME serialization and base64 encoding of the composed message
are opaque to every property below. Header fields that the source sets only
when non-empty are kept as the (possibly empty) strings passed in. -/
structure RawMessage where
  to_ : String
  from_ : String
  subject : String
  body : String
  cc : String
  bcc : String
  html : Bool
  in_reply_to : String
  references : String
  thread_id : String
deriving DecidableEq

/-- Lean model of `create_message(...)`; `thread_id` is `""` when absent, in
which case the source omits the `threadId` field of the result. -/
def create_message (to_ subject body from_ cc bcc : String) (html : Bool)
    (in_reply_to references thread_id : String) : RawMessage :=
  { to_ := to_, from_ := from_, subject := subject, body := body, cc := cc, bcc := bcc,
    html := html, in_reply_to := in_reply_to, references := references,
    thread_id := thread_id }

/-- Headers of the original message as fetched for a reply, each `none` when
the header is absent from the response. -/
structure Headers where
  from? : Option String
  to? : Option String
  subject? : Option String
  messageId? : Option String
  references? : Option String
deriving DecidableEq

/-- Fields returned by `get_message_for_reply`. -/
structure ReplyInfo where
  to_ : String
  subject : String
  thread_id : Option String
  message_id : String
  references : String
deriving DecidableEq

/-- Characters up to (and excluding) the first `>`, or `none` when no `>`
follows. -/
def takeUntilGt : List Char → Option (List Char)
  | [] => none
  | c :: rest => if c == '>' then some [] else (takeUntilGt rest).map (fun l => c :: l)

/-- Lean model of `re.search(r'<(.+?)>', s)`: the group of the leftmost
match, i.e. from the first `<`, at least one character, minimally extended to
the next `>`. When the first `<` has no closing `>` at distance two or more,
no later `<` can have one either, so the search fails. -/
def findAngleAddr : List Char → Option (List Char)
  | [] => none
  | c :: rest =>
      if c == '<' then
        match rest with
        | [] => none
        | c2 :: rest2 => (takeUntilGt rest2).map (fun l => c2 :: l)
      else findAngleAddr rest

/-- Test of `original_subject.lower().startswith("re:")` (case folding is
ASCII, the only case the prefix test can be sensitive to). -/
def startsWithRe (s : String) : Bool :=
  match s.data.map Char.toLower with
  | 'r' :: 'e' :: ':' :: _ => true
  | _ => false

/-- Lean model of the pure derivation inside `get_message_for_reply`,
applied to the headers of the original message and its thread id. -/
def get_message_for_reply (headers : Headers) (threadId : Option String) : ReplyInfo :=
  let original_from := headers.from?.getD ""
  let reply_to :=
    match findAngleAddr original_from.data with
    | some l => String.mk l
    | none => original_from
  let original_subject := headers.subject?.getD "(no subject)"
  let subject :=
    if startsWithRe original_subject then original_subject else "Re: " ++ original_subject
  let message_id := headers.messageId?.getD ""
  let existing_refs := headers.references?.getD ""
  let references :=
    if existing_refs ≠ "" ∧ message_id ≠ "" then existing_refs ++ " " ++ message_id
    else if message_id ≠ "" then message_id
    else ""
  { to_ := reply_to, subject := subject, thread_id := threadId,
    message_id := message_id, references := references }

/-- Calls issued against the remote Gmail service by the modelled commands. -/
inductive ServiceCall where
  | messagesGet (id : String)
  | messagesSend (msg : RawMessage)
  | draftsCreate (msg : RawMessage)
deriving DecidableEq

/-- Result of a command run: premature `sys.exit(1)` with the printed error,
or normal completion. -/
inductive CmdOutcome where
  | exited (msg : String)
  | completed
deriving DecidableEq

/-- Arguments of the `send` and `draft` commands; `cc`/`bcc` are `""` when
not supplied (the source normalizes `None` with `args.cc or ""` and its
truthiness tests treat the two alike). -/
structure SendArgs where
  to_ : String
  subject : String
  body : String
  cc : String
  bcc : String
  html : Bool
deriving DecidableEq

/-- Arguments of the `reply` command. -/
structure ReplyArgs where
  message_id : String
  body : String
  html : Bool
deriving DecidableEq

/-- Python `s.split(',')` on a character list. -/
def splitOnComma : List Char → List (List Char)
  | [] => [[]]
  | c :: rest =>
      match splitOnComma rest with
      | [] => [[]]
      | g :: gs => if c == ',' then [] :: g :: gs else (c :: g) :: gs

/-- First entry of a comma-separated recipient list failing
`validate_email`, mirroring the cc/bcc loops (which run only when the string
is non-empty and exit at the first invalid entry). -/
def firstBadRecipient (s : String) : Option String :=
  if s = "" then none
  else ((splitOnComma s.data).find? (fun e => !(validate_email (String.mk e)))).map
    (fun e => String.mk (trimChars e))

/-- Lean model of `cmd_send(args)` after `get_credentials` returned `creds`:
the validation sequence of the source, then one `messages().send` call.
Returns the outcome and the remote mail-service calls issued. -/
def cmd_send (creds : Option Creds) (args : SendArgs) : CmdOutcome × List ServiceCall :=
  match creds with
  | none => (CmdOutcome.exited "Not authenticated. Run setup or auth first.", [])
  | some _ =>
      if args.to_ = "" then (CmdOutcome.exited "Error: --to is required", [])
      else if validate_email args.to_ = false then
        (CmdOutcome.exited ("Error: Invalid email address: " ++ args.to_), [])
      else
        match firstBadRecipient args.cc with
        | some bad => (CmdOutcome.exited ("Error: Invalid CC email address: " ++ bad), [])
        | none =>
        match firstBadRecipient args.bcc with
        | some bad => (CmdOutcome.exited ("Error: Invalid BCC email address: " ++ bad), [])
        | none =>
            if args.subject = "" then (CmdOutcome.exited "Error: --subject is required", [])
            else if args.body = "" then (CmdOutcome.exited "Error: --body is required", [])
            else
              (CmdOutcome.completed,
                [ServiceCall.messagesSend
                  (create_message args.to_ args.subject args.body "me" args.cc args.bcc
                    args.html "" "" "")])

/-- Lean model of `cmd_draft(args)`: identical validation, then one
`drafts().create` call. -/
def cmd_draft (creds : Option Creds) (args : SendArgs) : CmdOutcome × List ServiceCall :=
  match creds with
  | none => (CmdOutcome.exited "Not authenticated. Run setup or auth first.", [])
  | some _ =>
      if args.to_ = "" then (CmdOutcome.exited "Error: --to is required", [])
      else if validate_email args.to_ = false then
        (CmdOutcome.exited ("Error: Invalid email address: " ++ args.to_), [])
      else
        match firstBadRecipient args.cc with
        | some bad => (CmdOutcome.exited ("Error: Invalid CC email address: " ++ bad), [])
        | none =>
        match firstBadRecipient args.bcc with
        | some bad => (CmdOutcome.exited ("Error: Invalid BCC email address: " ++ bad), [])
        | none =>
            if args.subject = "" then (CmdOutcome.exited "Error: --subject is required", [])
            else if args.body = "" then (CmdOutcome.exited "Error: --body is required", [])
            else
              (CmdOutcome.completed,
                [ServiceCall.draftsCreate
                  (create_message args.to_ args.subject args.body "me" args.cc args.bcc
                    args.html "" "" "")])

/-- Lean model of `cmd_reply(args)` after `get_credentials` returned `creds`.
The remote `messages().get` of the original is supplied by `oracle`, giving
the headers and the thread id of the fetched message. Note the source
performs no recipient validation on this path. -/
def cmd_reply (creds : Option Creds) (oracle : String → Headers × Option String)
    (args : ReplyArgs) : CmdOutcome × List ServiceCall :=
  match creds with
  | none => (CmdOutcome.exited "Not authenticated. Run setup or auth first.", [])
  | some _ =>
      if args.message_id = "" then (CmdOutcome.exited "Error: message_id is required", [])
      else if args.body = "" then (CmdOutcome.exited "Error: --body is required", [])
      else
        let fetched := oracle args.message_id
        let original := get_message_for_reply fetched.1 fetched.2
        (CmdOutcome.completed,
          [ServiceCall.messagesGet args.message_id,
           ServiceCall.messagesSend
             (create_message original.to_ original.subject args.body "me" "" "" args.html
               original.message_id original.references (original.thread_id.getD ""))])

/-- Decimal digits of `n`, least significant first; the first argument is
fuel (one unit per digit, so `n` itself is always enough). -/
def toDigitsRevFuel : Nat → Nat → List Nat
  | 0, _ => []
  | _ + 1, 0 => []
  | fuel + 1, n + 1 => (n + 1) % 10 :: toDigitsRevFuel fuel ((n + 1) / 10)

/-- Decimal digits of `n`, least significant first (empty for zero). -/
def natDigitsRev (n : Nat) : List Nat := toDigitsRevFuel n n

/-- Value of a least-significant-first digit list. -/
def ofDigitsRev : List Nat → Nat
  | [] => 0
  | d :: ds => d + 10 * ofDigitsRev ds

/-- Character of a decimal digit. -/
def digitChar (d : Nat) : Char := Char.ofNat (48 + d)

/-- Decimal rendering of `n`, modelling the f-string `f"..._\x7bcounter\x7d..."`. -/
def natRepr (n : Nat) : String :=
  if n = 0 then "0" else String.mk (((natDigitsRev n).map digitChar).reverse)

/-- Index of the last `.` in a character list, if any. -/
def lastDotIdx (cs : List Char) : Option Nat :=
  match cs.reverse.findIdx? (fun c => c == '.') with
  | none => none
  | some j => some (cs.length - 1 - j)

/-- Stem and suffix of a file name as in `pathlib.PurePath`: split at the
last dot when it is neither the first nor the last character, else the whole
name with an empty suffix. -/
def pathSplitExt (name : String) : String × String :=
  match lastDotIdx name.data with
  | some i =>
      if 0 < i ∧ i < name.data.length - 1 then
        (String.mk (name.data.take i), String.mk (name.data.drop i))
      else (name, "")
  | none => (name, "")

/-- Candidate output paths tried by `download_attachment`: the plain
`dir/filename` first, then `dir/stem_1suffix`, `dir/stem_2suffix`, and so
on (stem and suffix are recomputed from the original filename each time). -/
def candidate (dir filename : String) : Nat → String
  | 0 => dir ++ "/" ++ filename
  | n + 1 =>
      dir ++ "/" ++ (pathSplitExt filename).1 ++ "_" ++ natRepr (n + 1) ++
        (pathSplitExt filename).2

/-- The `while output_path.exists()` loop of `download_attachment` over a
finite set `fs` of existing paths, starting at candidate `n`. The fuel is
only a termination bound; with fuel `fs.length + 1` it never runs out,
because the candidates are pairwise distinct. -/
def downloadLoop (fs : List String) (dir filename : String) : Nat → Nat → String
  | 0, n => candidate dir filename n
  | fuel + 1, n =>
      if candidate dir filename n ∈ fs then downloadLoop fs dir filename fuel (n + 1)
      else candidate dir filename n

/-- Lean model of the path-resolution part of `download_attachment`: the
existing file system is abstracted as the list `fs` of paths for which
`Path.exists()` holds; the attachment fetch and the final write are outside
the model. Returns the path the decoded bytes are written to. -/
def download_attachment (fs : List String) (dir filename : String) : String :=
  downloadLoop fs dir filename (fs.length + 1) 0

/-- Generic credential bundle used by concrete instantiations below. -/
def someCreds : Creds := ⟨"tok", true, false, false⟩

/-- C10: whenever the root node carries an inline body payload, extract_body
decodes and returns that payload whatever the mime-type of the node is. -/
theorem extract_body_leaf_payload_any_mime (mt fn : Option String) (bf : BodyField)
    (d : String) (hd : bf.data = some d) (hne : d ≠ "") :
    extract_body (MessagePart.leaf mt fn (some bf)) = decodeData d := by
  simp [extract_body, hd, hne]

/-- Witness for C10: a single-part text/html message yields its decoded HTML
text. -/
theorem extract_body_leaf_payload_any_mime_witness :
    extract_body (MessagePart.leaf (some "text/html") none
      (some ⟨some "PHA-SGk8L3A-", none, none⟩)) = "<p>Hi</p>" := by
  have h := extract_body_leaf_payload_any_mime (some "text/html") none
    ⟨some "PHA-SGk8L3A-", none, none⟩ "PHA-SGk8L3A-" rfl (by decide)
  rw [h]
  decide

/-- C5: whenever the root node carries an inline body payload, extract_body
returns it immediately, even when a direct child is a plain-text part with
its own payload. -/
theorem extract_body_node_payload_precedence (mt fn : Option String) (bf : BodyField)
    (parts : List MessagePart) (d : String) (hd : bf.data = some d) (hne : d ≠ "")
    (child : MessagePart) (hmem : child ∈ parts)
    (hmime : child.mimeType = some "text/plain") (hcd : dataTruthy child = true) :
    extract_body (MessagePart.node mt fn (some bf) parts) = decodeData d := by
  simp [extract_body, hd, hne]

/-- Witness for C5: the root payload decodes to "Hello" and wins over a
plain-text child whose payload decodes to "World". -/
theorem extract_body_node_payload_precedence_witness :
    extract_body (MessagePart.node none none (some ⟨some "SGVsbG8=", none, none⟩)
      [MessagePart.leaf (some "text/plain") none (some ⟨some "V29ybGQ=", none, none⟩)])
      = "Hello" := by
  have h := extract_body_node_payload_precedence none none ⟨some "SGVsbG8=", none, none⟩
    [MessagePart.leaf (some "text/plain") none (some ⟨some "V29ybGQ=", none, none⟩)]
    "SGVsbG8=" rfl (by decide)
    (MessagePart.leaf (some "text/plain") none (some ⟨some "V29ybGQ=", none, none⟩))
    (by simp) rfl (by decide)
  rw [h]
  decide

/-- C6: the references chain of a reply is prior references, a space, and the
original Message-ID when both exist; the Message-ID alone when only it
exists; and empty when neither exists. -/
theorem get_message_for_reply_references (h : Headers) (tid : Option String) :
    (h.references?.getD "" ≠ "" → h.messageId?.getD "" ≠ "" →
      (get_message_for_reply h tid).references
        = h.references?.getD "" ++ " " ++ h.messageId?.getD "") ∧
    (h.references?.getD "" = "" → h.messageId?.getD "" ≠ "" →
      (get_message_for_reply h tid).references = h.messageId?.getD "") ∧
    (h.references?.getD "" = "" → h.messageId?.getD "" = "" →
      (get_message_for_reply h tid).references = "") := by
  refine ⟨?_, ?_, ?_⟩ <;> intro h1 h2 <;> simp [get_message_for_reply, h1, h2]

/-- Witness for C6: the three cases at concrete headers, matching the worked
examples of the specification. -/
theorem get_message_for_reply_references_witness :
    (get_message_for_reply ⟨none, none, none, some "<c>", some "<a> <b>"⟩ none).references
      = "<a> <b> <c>" ∧
    (get_message_for_reply ⟨none, none, none, some "<c>", none⟩ none).references = "<c>" ∧
    (get_message_for_reply ⟨none, none, none, none, none⟩ none).references = "" := by
  refine ⟨?_, ?_, ?_⟩
  · have h := (get_message_for_reply_references
      ⟨none, none, none, some "<c>", some "<a> <b>"⟩ none).1 (by decide) (by decide)
    rw [h]
    decide
  · have h := (get_message_for_reply_references
      ⟨none, none, none, some "<c>", none⟩ none).2.1 (by decide) (by decide)
    rw [h]
    decide
  · exact (get_message_for_reply_references ⟨none, none, none, none, none⟩ none).2.2
      (by decide) (by decide)

/-- C7: the reply subject is unchanged when the original already begins with
"Re:" case-insensitively, and is "Re: " prepended to it otherwise, so the
prefix is applied at most once. -/
theorem get_message_for_reply_subject (h : Headers) (tid : Option String) (subj : String)
    (hs : h.subject? = some subj) :
    (startsWithRe subj = true → (get_message_for_reply h tid).subject = subj) ∧
    (startsWithRe subj = false → (get_message_for_reply h tid).subject = "Re: " ++ subj) := by
  constructor <;> intro h1 <;> simp [get_message_for_reply, hs, h1]

/-- Witness for C7: a subject already prefixed stays unchanged, and one
without the prefix gains it. -/
theorem get_message_for_reply_subject_witness :
    (get_message_for_reply ⟨none, none, some "Re: existing", none, none⟩ none).subject
      = "Re: existing" ∧
    (get_message_for_reply ⟨none, none, some "Quarterly Report", none, none⟩ none).subject
      = "Re: Quarterly Report" := by
  constructor
  · exact (get_message_for_reply_subject ⟨none, none, some "Re: existing", none, none⟩
      none "Re: existing" rfl).1 (by decide)
  · have h := (get_message_for_reply_subject
      ⟨none, none, some "Quarterly Report", none, none⟩ none "Quarterly Report" rfl).2
      (by decide)
    rw [h]
    decide

/-- C3: set_scope rejects unknown scopes with a ValueError and leaves the
persisted state unchanged; on a valid scope it persists it and deletes the
token, after which get_credentials never performs a refresh exchange and,
when client secrets are configured, performs exactly the full authorization
flow. -/
theorem set_scope_spec (s : String) (st : PersistState) :
    ((SCOPES_MAP s).isSome = false →
      set_scope s st = (Except.error (PyErr.valueError ("Invalid scope: " ++ s)), st)) ∧
    ((SCOPES_MAP s).isSome = true →
      set_scope s st = (Except.ok (), ⟨some s, none⟩) ∧
      ∀ env : AuthEnv,
        AuthCall.refresh ∉ (get_credentials env ⟨some s, none⟩).calls ∧
        (env.clientSecretsExists = true →
          (get_credentials env ⟨some s, none⟩).calls = [AuthCall.fullFlow])) := by
  constructor
  · intro h1
    simp [set_scope, h1]
  · intro h1
    refine ⟨by simp [set_scope, h1], ?_⟩
    intro env
    obtain ⟨l, hl⟩ := Option.isSome_iff_exists.mp h1
    have hgc : get_credentials env ⟨some s, none⟩ = fullReauth env ⟨some s, none⟩ := by
      simp [get_credentials, get_current_scope, hl]
    rw [hgc]
    unfold fullReauth
    cases hcs : env.clientSecretsExists
    · simp
    · cases hfo : env.flowOutcome <;> simp

/-- Witness for C3: setting the scope to "readonly" persists it, clears the
token, and the following acquisition against a configured environment runs
exactly the full flow. -/
theorem set_scope_spec_witness :
    set_scope "readonly" ⟨some "modify", some ⟨"t0", true, false, true⟩⟩
      = (Except.ok (), ⟨some "readonly", none⟩) ∧
    (get_credentials ⟨true, Except.ok someCreds, some someCreds⟩
      ⟨some "readonly", none⟩).calls = [AuthCall.fullFlow] := by
  have h := (set_scope_spec "readonly" ⟨some "modify", some ⟨"t0", true, false, true⟩⟩).2
    (by decide)
  exact ⟨h.1, (h.2 ⟨true, Except.ok someCreds, some someCreds⟩).2 rfl⟩

/-- C2 (amended): for a persisted handle that is invalid, expired and holds a
refresh token, get_credentials performs the refresh exchange; on success it
persists and returns the refreshed handle, and on failure the exception
propagates to the caller — no fall-through to full re-authorization. -/
theorem get_credentials_refresh_spec (env : AuthEnv) (st : PersistState) (c : Creds)
    (hscope : (SCOPES_MAP (get_current_scope st)).isSome = true)
    (htok : st.tokenFile = some c) (hvalid : c.valid = false) (hexp : c.expired = true)
    (href : c.refresh_token = true) :
    (∀ c2, env.refreshOutcome = Except.ok c2 →
      get_credentials env st
        = ⟨Except.ok (some c2), { st with tokenFile := some c2 }, [AuthCall.refresh]⟩) ∧
    (∀ e, env.refreshOutcome = Except.error e →
      get_credentials env st = ⟨Except.error e, st, [AuthCall.refresh]⟩) := by
  obtain ⟨l, hl⟩ := Option.isSome_iff_exists.mp hscope
  constructor <;> intro x hx <;> simp [get_credentials, hl, htok, hvalid, hexp, href, hx]

/-- Expired-but-refreshable credential bundle used in the C2 instances. -/
def c2ExpiredCreds : Creds := ⟨"tok-old", false, true, true⟩

/-- Fresh credential bundle a successful exchange would produce. -/
def c2FreshCreds : Creds := ⟨"tok-new", true, false, false⟩

/-- Environment in which the refresh exchange fails while a full
re-authorization would succeed. -/
def c2Env : AuthEnv := ⟨true, Except.error (PyErr.refreshError "invalid_grant"), some c2FreshCreds⟩

/-- Persisted state holding an expired refreshable token. -/
def c2St : PersistState := ⟨some "modify", some c2ExpiredCreds⟩

/-- C2 counterexample: with an expired refreshable handle and a failing
refresh exchange, get_credentials propagates the refresh error to the caller
even though client secrets are present and the full flow would have produced
fresh credentials; no full-flow exchange is attempted. -/
theorem get_credentials_refresh_failure_counterexample :
    get_credentials c2Env c2St
      = ⟨Except.error (PyErr.refreshError "invalid_grant"), c2St, [AuthCall.refresh]⟩ ∧
    c2Env.clientSecretsExists = true ∧ c2Env.flowOutcome = some c2FreshCreds :=
  ⟨rfl, rfl, rfl⟩

/-- Witness for the amended C2: a successful refresh persists and returns the
refreshed handle. -/
theorem get_credentials_refresh_spec_witness :
    get_credentials ⟨true, Except.ok c2FreshCreds, none⟩ ⟨some "modify", some c2ExpiredCreds⟩
      = ⟨Except.ok (some c2FreshCreds), ⟨some "modify", some c2FreshCreds⟩,
         [AuthCall.refresh]⟩ := by
  have h := (get_credentials_refresh_spec ⟨true, Except.ok c2FreshCreds, none⟩
    ⟨some "modify", some c2ExpiredCreds⟩ c2ExpiredCreds (by decide) rfl rfl rfl rfl).1
    c2FreshCreds rfl
  exact h

/-- Remote oracle for the C8 reply instances: the original message was sent
from the malformed address "not-an-email". -/
def c8Oracle : String → Headers × Option String :=
  fun _ => (⟨some "not-an-email", none, some "Hi", some "<m1@x>", none⟩, some "t1")

/-- C8 (amended): for the send and draft operations a malformed recipient is
rejected before any remote mail-service call, with an empty call list: a
malformed `--to` directly; any malformed cc entry makes the cc scan produce a
first offender, whose presence exits with the invalid-CC error; likewise for
bcc once cc passed. The reply operation, by contrast, performs no recipient
validation for any remote oracle: it completes, issues exactly the get and
the send, and the send's recipient is the derived reply address verbatim. -/
theorem send_draft_reject_invalid_recipient (c : Creds) (args : SendArgs) :
    (args.to_ ≠ "" → validate_email args.to_ = false →
      cmd_send (some c) args
        = (CmdOutcome.exited ("Error: Invalid email address: " ++ args.to_), []) ∧
      cmd_draft (some c) args
        = (CmdOutcome.exited ("Error: Invalid email address: " ++ args.to_), [])) ∧
    (∀ s : String, s ≠ "" →
      (∃ e ∈ splitOnComma s.data, validate_email (String.mk e) = false) →
      (firstBadRecipient s).isSome = true) ∧
    (validate_email args.to_ = true → ∀ bad, firstBadRecipient args.cc = some bad →
      cmd_send (some c) args
        = (CmdOutcome.exited ("Error: Invalid CC email address: " ++ bad), []) ∧
      cmd_draft (some c) args
        = (CmdOutcome.exited ("Error: Invalid CC email address: " ++ bad), [])) ∧
    (validate_email args.to_ = true → firstBadRecipient args.cc = none →
      ∀ bad, firstBadRecipient args.bcc = some bad →
      cmd_send (some c) args
        = (CmdOutcome.exited ("Error: Invalid BCC email address: " ++ bad), []) ∧
      cmd_draft (some c) args
        = (CmdOutcome.exited ("Error: Invalid BCC email address: " ++ bad), [])) ∧
    (∀ (oracle : String → Headers × Option String) (rargs : ReplyArgs),
      rargs.message_id ≠ "" → rargs.body ≠ "" →
      ∃ msg : RawMessage,
        cmd_reply (some c) oracle rargs
          = (CmdOutcome.completed,
             [ServiceCall.messagesGet rargs.message_id, ServiceCall.messagesSend msg]) ∧
        msg.to_ = (get_message_for_reply (oracle rargs.message_id).1
          (oracle rargs.message_id).2).to_) := by
  have hto_of_valid : validate_email args.to_ = true → args.to_ ≠ "" := by
    intro hvt he
    rw [he] at hvt
    exact absurd hvt (by decide)
  refine ⟨?_, ?_, ?_, ?_, ?_⟩
  · intro hne hbad
    constructor <;> simp [cmd_send, cmd_draft, hne, hbad]
  · intro s hs hex
    rw [firstBadRecipient, if_neg hs]
    obtain ⟨e, he1, he2⟩ := hex
    have hfind :
        ((splitOnComma s.data).find? (fun e => !(validate_email (String.mk e)))).isSome
          = true := by
      rw [List.find?_isSome]
      exact ⟨e, he1, by simp [he2]⟩
    obtain ⟨b, hb⟩ := Option.isSome_iff_exists.mp hfind
    simp [hb]
  · intro hvt bad hfb
    have hto := hto_of_valid hvt
    constructor <;> simp [cmd_send, cmd_draft, hto, hvt, hfb]
  · intro hvt hccnone bad hfb
    have hto := hto_of_valid hvt
    constructor <;> simp [cmd_send, cmd_draft, hto, hvt, hccnone, hfb]
  · intro oracle rargs hm hb
    refine ⟨create_message
        (get_message_for_reply (oracle rargs.message_id).1 (oracle rargs.message_id).2).to_
        (get_message_for_reply (oracle rargs.message_id).1 (oracle rargs.message_id).2).subject
        rargs.body "me" "" "" rargs.html
        (get_message_for_reply (oracle rargs.message_id).1
          (oracle rargs.message_id).2).message_id
        (get_message_for_reply (oracle rargs.message_id).1
          (oracle rargs.message_id).2).references
        ((get_message_for_reply (oracle rargs.message_id).1
          (oracle rargs.message_id).2).thread_id.getD ""), ?_, rfl⟩
    simp [cmd_reply, hm, hb]

/-- Witness for the amended C8, one concrete instance per branch: a malformed
`--to` rejected by send and draft, a malformed cc entry detected by the scan
and rejected, a malformed bcc entry rejected once cc passed, and a reply
through an oracle whose original From is malformed still completing. -/
theorem send_draft_reject_invalid_recipient_witness :
    cmd_send (some someCreds) ⟨"not-an-email", "Subject", "Body", "", "", false⟩
      = (CmdOutcome.exited "Error: Invalid email address: not-an-email", []) ∧
    cmd_draft (some someCreds) ⟨"not-an-email", "Subject", "Body", "", "", false⟩
      = (CmdOutcome.exited "Error: Invalid email address: not-an-email", []) ∧
    (firstBadRecipient "bad-cc").isSome = true ∧
    cmd_send (some someCreds) ⟨"a@b.com", "Subject", "Body", "bad-cc", "", false⟩
      = (CmdOutcome.exited "Error: Invalid CC email address: bad-cc", []) ∧
    cmd_draft (some someCreds) ⟨"a@b.com", "Subject", "Body", "", "bad-bcc", false⟩
      = (CmdOutcome.exited "Error: Invalid BCC email address: bad-bcc", []) ∧
    (cmd_reply (some someCreds) c8Oracle ⟨"mid1", "hello", false⟩).1
      = CmdOutcome.completed := by
  have h1 := (send_draft_reject_invalid_recipient someCreds
    ⟨"not-an-email", "Subject", "Body", "", "", false⟩).1 (by decide) (by decide)
  have h2 := (send_draft_reject_invalid_recipient someCreds
    ⟨"a@b.com", "Subject", "Body", "bad-cc", "", false⟩).2.1 "bad-cc" (by decide)
    ⟨"bad-cc".data, by decide, by decide⟩
  have h3 := (send_draft_reject_invalid_recipient someCreds
    ⟨"a@b.com", "Subject", "Body", "bad-cc", "", false⟩).2.2.1 (by decide) "bad-cc"
    (by decide)
  have h4 := (send_draft_reject_invalid_recipient someCreds
    ⟨"a@b.com", "Subject", "Body", "", "bad-bcc", false⟩).2.2.2.1 (by decide) (by decide)
    "bad-bcc" (by decide)
  obtain ⟨msg, hmsg, -⟩ := (send_draft_reject_invalid_recipient someCreds
    ⟨"a@b.com", "Subject", "Body", "", "", false⟩).2.2.2.2 c8Oracle
    ⟨"mid1", "hello", false⟩ (by decide) (by decide)
  refine ⟨h1.1.trans (by decide), h1.2.trans (by decide), h2, h3.1.trans (by decide),
    h4.2.trans (by decide), ?_⟩
  rw [hmsg]

/-- C8 counterexample: the reply operation performs no recipient validation.
With an original From header holding a malformed address, cmd_reply issues a
remote get and then a remote send whose recipient is that malformed address,
instead of rejecting before any remote call. -/
theorem cmd_reply_no_recipient_validation_counterexample :
    validate_email "not-an-email" = false ∧
    cmd_reply (some someCreds) c8Oracle ⟨"mid1", "hello", false⟩
      = (CmdOutcome.completed,
         [ServiceCall.messagesGet "mid1",
          ServiceCall.messagesSend ⟨"not-an-email", "me", "Re: Hi", "hello", "", "", false,
            "<m1@x>", "<m1@x>", "t1"⟩]) :=
  ⟨by decide, rfl⟩

/-- Value one direct child contributes in the scan of extract_body: its own
decoded payload when it is a plain-text part carrying one, else its
non-empty recursive extraction when it has a parts key, else nothing. -/
def childScan (part : MessagePart) : Option String :=
  if part.mimeType = some "text/plain" ∧ dataTruthy part = true then
    some (decodeData (part.bodyData.getD ""))
  else
    match part with
    | .node mt fn b ps =>
        if extract_body (.node mt fn b ps) = "" then none
        else some (extract_body (.node mt fn b ps))
    | .leaf _ _ _ => none

/-- Helper for C1: the child loop returns the first value contributed by a
child in a single in-order pass. -/
theorem extractBodyFromParts_eq_findSome (l : List MessagePart) :
    extractBodyFromParts l = (l.findSome? childScan).getD "" := by
  induction l with
  | nil => rfl
  | cons part rest ih =>
      rw [extractBodyFromParts.eq_def, List.findSome?_cons]
      by_cases hc : part.mimeType = some "text/plain" ∧ dataTruthy part = true
      · simp [hc, childScan]
      · cases part with
        | leaf mt fn b => simp [hc, childScan, ih]
        | node mt fn b ps =>
            simp only [hc, if_false, childScan]
            by_cases hz : extract_body (.node mt fn b ps) = ""
            · simp [hz, ih]
            · simp [hz]

/-- C1 (amended): for a root carrying no inline payload, extract_body makes a
single in-order pass over the direct children: each child yields its own
decoded payload when it is a plain-text part carrying one, else — only when
the child itself has a parts key — its non-empty recursive result; the first
value produced is returned, else the empty string. -/
theorem extract_body_children_single_pass (mt fn : Option String) (b : Option BodyField)
    (parts : List MessagePart) (hb : dataTruthyO b = false) :
    extract_body (MessagePart.node mt fn b parts)
      = (parts.findSome? childScan).getD "" := by
  rw [← extractBodyFromParts_eq_findSome]
  cases b with
  | none => simp [extract_body]
  | some bf =>
      cases hd : bf.data with
      | none => simp [extract_body, hd]
      | some d =>
          have hde : d = "" := by
            have := hb
            simp [dataTruthyO, hd] at this
            exact this
          simp [extract_body, hd, hde]

/-- First direct child of the C1 counterexample: a container whose nested
plain-text part decodes to "X". -/
def c1ChildA : MessagePart :=
  MessagePart.node none none none
    [MessagePart.leaf (some "text/plain") none (some ⟨some "WA==", none, none⟩)]

/-- Second direct child of the C1 counterexample: a plain-text part whose
payload decodes to "Y". -/
def c1ChildB : MessagePart :=
  MessagePart.leaf (some "text/plain") none (some ⟨some "WQ==", none, none⟩)

/-- Root of the C1 counterexample: no inline payload, children A then B. -/
def c1Root : MessagePart := MessagePart.node none none none [c1ChildA, c1ChildB]

/-- C1 counterexample: the direct child c1ChildB is a plain-text part with a
payload decoding to "Y", so a scan of all direct children before any
recursion would return "Y"; the code instead recurses into the earlier child
c1ChildA first and returns "X". -/
theorem extract_body_two_phase_counterexample :
    dataTruthy c1Root = false ∧
    c1ChildB ∈ [c1ChildA, c1ChildB] ∧
    c1ChildB.mimeType = some "text/plain" ∧ dataTruthy c1ChildB = true ∧
    decodeData "WQ==" = "Y" ∧
    extract_body c1Root = "X" ∧ ("X" : String) ≠ "Y" :=
  ⟨rfl, by simp, rfl, rfl, by decide, by decide, by decide⟩

/-- Witness for the amended C1 at the counterexample tree: the single-pass
scan value is indeed what extract_body returns. -/
theorem extract_body_children_single_pass_witness :
    extract_body (MessagePart.node none none none [c1ChildA, c1ChildB])
      = ([c1ChildA, c1ChildB].findSome? childScan).getD ""
    ∧ ([c1ChildA, c1ChildB].findSome? childScan).getD "" = "X" := by
  refine ⟨extract_body_children_single_pass none none none [c1ChildA, c1ChildB] rfl, ?_⟩
  decide

mutual

/-- Helper for C4, tree level: the collected attachments are exactly the
pre-order nodes with truthy filenames, in order. -/
theorem extract_attachment_info_preorder_eq (p : MessagePart) :
    extract_attachment_info p
      = ((preorderNodes p).filter (fun q => filenameTruthy q)).map attachmentOf := by
  cases p with
  | leaf mt fn b =>
      by_cases hf : filenameTruthy (MessagePart.leaf mt fn b) = true <;>
        simp [extract_attachment_info, preorderNodes, hf]
  | node mt fn b parts =>
      have hrest := extractAttachmentsFromParts_preorder_eq parts
      by_cases hf : filenameTruthy (MessagePart.node mt fn b parts) = true <;>
        simp [extract_attachment_info, preorderNodes, hf, hrest]

/-- Helper for C4, forest level. -/
theorem extractAttachmentsFromParts_preorder_eq (l : List MessagePart) :
    extractAttachmentsFromParts l
      = ((preorderList l).filter (fun q => filenameTruthy q)).map attachmentOf := by
  cases l with
  | nil => rfl
  | cons p rest =>
      have h1 := extract_attachment_info_preorder_eq p
      have h2 := extractAttachmentsFromParts_preorder_eq rest
      simp [extractAttachmentsFromParts, preorderList, h1, h2]

end

/-- C4: extract_attachment_info lists exactly the nodes carrying a non-empty
filename, as attachment records, in depth-first pre-order; in particular its
length is the number of such nodes, and a node with both a filename and
children is recorded and still traversed into. -/
theorem extract_attachment_info_preorder (p : MessagePart) :
    extract_attachment_info p
      = ((preorderNodes p).filter (fun q => filenameTruthy q)).map attachmentOf ∧
    (extract_attachment_info p).length
      = (preorderNodes p).countP (fun q => filenameTruthy q) := by
  refine ⟨extract_attachment_info_preorder_eq p, ?_⟩
  rw [extract_attachment_info_preorder_eq p, List.length_map, List.countP_eq_length_filter]

/-- Evaluation of the fuelled digit expansion: with enough fuel it is a
decimal expansion of its input. -/
theorem ofDigitsRev_toDigitsRevFuel :
    ∀ fuel n, n ≤ fuel → ofDigitsRev (toDigitsRevFuel fuel n) = n := by
  intro fuel
  induction fuel with
  | zero =>
      intro n hn
      have : n = 0 := Nat.le_zero.mp hn
      subst this
      rfl
  | succ fuel ih =>
      intro n hn
      cases n with
      | zero => rfl
      | succ m =>
          rw [toDigitsRevFuel, ofDigitsRev]
          have hdiv : (m + 1) / 10 < m + 1 := Nat.div_lt_self (Nat.succ_pos m) (by omega)
          rw [ih ((m + 1) / 10) (by omega)]
          omega

/-- The digit expansion is injective. -/
theorem natDigitsRev_inj {a b : Nat} (h : natDigitsRev a = natDigitsRev b) : a = b := by
  have ha := ofDigitsRev_toDigitsRevFuel a a le_rfl
  have hb := ofDigitsRev_toDigitsRevFuel b b le_rfl
  calc a = ofDigitsRev (toDigitsRevFuel a a) := ha.symm
    _ = ofDigitsRev (toDigitsRevFuel b b) := by
          rw [show toDigitsRevFuel a a = toDigitsRevFuel b b from h]
    _ = b := hb

/-- Every produced digit is below ten. -/
theorem toDigitsRevFuel_lt_ten :
    ∀ fuel n d, d ∈ toDigitsRevFuel fuel n → d < 10 := by
  intro fuel
  induction fuel with
  | zero => intro n d hd; simp [toDigitsRevFuel] at hd
  | succ fuel ih =>
      intro n d hd
      cases n with
      | zero => simp [toDigitsRevFuel] at hd
      | succ m =>
          rw [toDigitsRevFuel] at hd
          rcases List.mem_cons.mp hd with he | hm
          · omega
          · exact ih _ _ hm

/-- The digit-to-character map is injective on digits. -/
theorem digitChar_inj {d e : Nat} (hd : d < 10) (he : e < 10)
    (h : digitChar d = digitChar e) : d = e := by
  revert h
  interval_cases d <;> interval_cases e <;> decide

/-- Mapping digit lists to character lists is injective. -/
theorem map_digitChar_inj :
    ∀ {l1 l2 : List Nat}, (∀ d ∈ l1, d < 10) → (∀ d ∈ l2, d < 10) →
      l1.map digitChar = l2.map digitChar → l1 = l2 := by
  intro l1
  induction l1 with
  | nil =>
      intro l2 _ _ h
      cases l2 with
      | nil => rfl
      | cons e es => simp at h
  | cons d ds ih =>
      intro l2 h1 h2 h
      cases l2 with
      | nil => simp at h
      | cons e es =>
          simp only [List.map_cons, List.cons.injEq] at h
          have hd := h1 d (by simp)
          have he := h2 e (by simp)
          have hde : d = e := digitChar_inj hd he h.1
          rw [hde, ih (fun x hx => h1 x (by simp [hx])) (fun x hx => h2 x (by simp [hx])) h.2]

/-- Strings with equal character data are equal. -/
theorem str_data_ext {a b : String} (h : a.data = b.data) : a = b := by
  cases a
  cases b
  exact congrArg String.mk h

/-- Appending strings appends their data. -/
theorem strData_append (a b : String) : (a ++ b).data = a.data ++ b.data := rfl

/-- Bounds of the digit expansion, phrased on natDigitsRev. -/
theorem natDigitsRev_lt_ten (n : Nat) : ∀ d ∈ natDigitsRev n, d < 10 :=
  fun d hd => toDigitsRevFuel_lt_ten n n d hd

/-- The decimal rendering of a non-zero number is never the string "0". -/
theorem natRepr_nonzero_ne_zero {b : Nat} (hb : b ≠ 0) (h : natRepr b = "0") : False := by
  rw [natRepr, if_neg hb] at h
  have hdata := congrArg String.data h
  have h3 : (natDigitsRev b).map digitChar = ['0'] := by
    have := congrArg List.reverse hdata
    simpa using this
  have h4 : natDigitsRev b = [0] :=
    map_digitChar_inj (natDigitsRev_lt_ten b) (by intro d hd; simp at hd; omega)
      (by rw [h3]; decide)
  have h5 := ofDigitsRev_toDigitsRevFuel b b le_rfl
  rw [show toDigitsRevFuel b b = natDigitsRev b from rfl, h4] at h5
  simp [ofDigitsRev] at h5
  exact hb h5.symm

/-- Decimal rendering is injective. -/
theorem natRepr_inj {a b : Nat} (h : natRepr a = natRepr b) : a = b := by
  by_cases ha : a = 0 <;> by_cases hb : b = 0
  · rw [ha, hb]
  · exfalso
    rw [ha, show natRepr 0 = "0" from rfl] at h
    exact natRepr_nonzero_ne_zero hb h.symm
  · exfalso
    rw [hb, show natRepr 0 = "0" from rfl] at h
    exact natRepr_nonzero_ne_zero ha h
  · rw [natRepr, natRepr, if_neg ha, if_neg hb] at h
    have hdata := congrArg String.data h
    have h3 : (natDigitsRev a).map digitChar = (natDigitsRev b).map digitChar := by
      have := congrArg List.reverse hdata
      simpa using this
    exact natDigitsRev_inj
      (map_digitChar_inj (natDigitsRev_lt_ten a) (natDigitsRev_lt_ten b) h3)

/-- A positive counter renders to a non-empty string. -/
theorem natRepr_succ_data_ne_nil (n : Nat) : (natRepr (n + 1)).data ≠ [] := by
  rw [natRepr, if_neg (Nat.succ_ne_zero n)]
  simp [natDigitsRev, toDigitsRevFuel]

/-- Stem and suffix concatenate back to the file name. -/
theorem pathSplitExt_data_concat (filename : String) :
    (pathSplitExt filename).1.data ++ (pathSplitExt filename).2.data = filename.data := by
  cases hl : lastDotIdx filename.data with
  | none => simp [pathSplitExt, hl]
  | some i =>
      by_cases hcond : 0 < i ∧ i < filename.data.length - 1
      · have hcond2 : 0 < i ∧ i < filename.length - 1 := hcond
        simp [pathSplitExt, hl, hcond2]
      · have hcond2 : ¬(0 < i ∧ i < filename.length - 1) := hcond
        simp [pathSplitExt, hl, hcond2]

/-- The plain path differs from every suffixed candidate. -/
theorem candidate_zero_ne_succ (dir filename : String) (k : Nat) :
    candidate dir filename 0 ≠ candidate dir filename (k + 1) := by
  intro h
  have hdata := congrArg String.data h
  simp only [candidate, strData_append, List.append_assoc] at hdata
  have h1 := List.append_cancel_left hdata
  have h2 := List.append_cancel_left h1
  rw [← pathSplitExt_data_concat filename] at h2
  have h3 := List.append_cancel_left h2
  have hlen := congrArg List.length h3
  simp only [List.length_append, List.length_cons, List.length_nil] at hlen
  omega

/-- The candidate paths are pairwise distinct. -/
theorem candidate_inj (dir filename : String) :
    Function.Injective (candidate dir filename) := by
  intro m n h
  match m, n with
  | 0, 0 => rfl
  | 0, k + 1 => exact absurd h (candidate_zero_ne_succ dir filename k)
  | j + 1, 0 => exact absurd h.symm (candidate_zero_ne_succ dir filename j)
  | j + 1, k + 1 =>
      have hdata := congrArg String.data h
      simp only [candidate, strData_append, List.append_assoc] at hdata
      have h1 := List.append_cancel_left hdata
      have h2 := List.append_cancel_left h1
      have h3 := List.append_cancel_left h2
      have h4 := List.append_cancel_left h3
      have h5 := List.append_cancel_right h4
      have h6 : natRepr (j + 1) = natRepr (k + 1) := str_data_ext h5
      have := natRepr_inj h6
      omega

/-- In any finite set of existing paths some candidate with index at most the
set size is free. -/
theorem exists_candidate_not_mem (fs : List String) (dir filename : String) :
    ∃ n, n ≤ fs.length ∧ candidate dir filename n ∉ fs := by
  by_contra hcon
  push_neg at hcon
  have hsub : ∀ x ∈ (List.range (fs.length + 1)).map (candidate dir filename), x ∈ fs := by
    intro x hx
    simp only [List.mem_map, List.mem_range] at hx
    obtain ⟨k, hk, rfl⟩ := hx
    exact hcon k (by omega)
  have hnodup : ((List.range (fs.length + 1)).map (candidate dir filename)).Nodup :=
    (List.nodup_range _).map (candidate_inj dir filename)
  have hcard1 :
      ((List.range (fs.length + 1)).map (candidate dir filename)).toFinset.card
        = fs.length + 1 := by
    rw [List.toFinset_card_of_nodup hnodup]
    simp
  have hsubf :
      ((List.range (fs.length + 1)).map (candidate dir filename)).toFinset ⊆ fs.toFinset := by
    intro x hx
    rw [List.mem_toFinset] at hx ⊢
    exact hsub x hx
  have hle := Finset.card_le_card hsubf
  have h2 := List.toFinset_card_le fs
  omega

/-- Behaviour of the collision loop when some candidate within the fuel
budget is free: it returns the first free candidate, every earlier one being
occupied. -/
theorem downloadLoop_spec (fs : List String) (dir filename : String) :
    ∀ fuel n, (∃ m, n ≤ m ∧ m < n + fuel ∧ candidate dir filename m ∉ fs) →
    ∃ m, n ≤ m ∧ candidate dir filename m ∉ fs ∧
      (∀ j, n ≤ j → j < m → candidate dir filename j ∈ fs) ∧
      downloadLoop fs dir filename fuel n = candidate dir filename m := by
  intro fuel
  induction fuel with
  | zero =>
      intro n hex
      obtain ⟨m, h1, h2, _⟩ := hex
      omega
  | succ fuel ih =>
      intro n hex
      obtain ⟨m, h1, h2, h3⟩ := hex
      by_cases hmem : candidate dir filename n ∈ fs
      · have hne : m ≠ n := by
          intro he
          rw [he] at h3
          exact h3 hmem
        obtain ⟨m2, g1, g2, g3, g4⟩ := ih (n + 1) ⟨m, by omega, by omega, h3⟩
        refine ⟨m2, by omega, g2, ?_, ?_⟩
        · intro j hj1 hj2
          rcases Nat.eq_or_lt_of_le hj1 with he | hl
          · rw [← he]
            exact hmem
          · exact g3 j hl hj2
        · rw [downloadLoop, if_pos hmem]
          exact g4
      · exact ⟨n, le_rfl, hmem, by omega, by rw [downloadLoop, if_neg hmem]⟩

/-- C9: download_attachment returns the first free path in the sequence
plain name, stem_1, stem_2, ..., every earlier candidate being occupied; in
particular a second call with the same filename after the first path was
created yields the distinct path suffixed with _1 before the extension. -/
theorem download_attachment_spec (fs : List String) (dir filename : String) :
    (∃ n, candidate dir filename n ∉ fs ∧
      (∀ j, j < n → candidate dir filename j ∈ fs) ∧
      download_attachment fs dir filename = candidate dir filename n) ∧
    (candidate dir filename 0 ∉ fs → candidate dir filename 1 ∉ fs →
      download_attachment fs dir filename = candidate dir filename 0 ∧
      download_attachment (candidate dir filename 0 :: fs) dir filename
        = candidate dir filename 1 ∧
      candidate dir filename 0 ≠ candidate dir filename 1) := by
  constructor
  · obtain ⟨m, hm1, hm2⟩ := exists_candidate_not_mem fs dir filename
    obtain ⟨k, _k1, k2, k3, k4⟩ := downloadLoop_spec fs dir filename (fs.length + 1) 0
      ⟨m, by omega, by omega, hm2⟩
    exact ⟨k, k2, fun j hj => k3 j (by omega) hj, k4⟩
  · intro h0 h1
    have hnotmem : candidate dir filename 1 ∉ candidate dir filename 0 :: fs := by
      intro hmem
      rcases List.mem_cons.mp hmem with he | hin
      · exact candidate_zero_ne_succ dir filename 0 he.symm
      · exact h1 hin
    refine ⟨?_, ?_, candidate_zero_ne_succ dir filename 0⟩
    · rw [download_attachment, downloadLoop, if_neg h0]
    · rw [download_attachment]
      simp only [List.length_cons]
      rw [downloadLoop, if_pos (List.mem_cons_self _ _)]
      rw [downloadLoop, if_neg hnotmem]

/-- Witness for C9: in an empty directory the first download lands on the
plain path and the second on the path suffixed with _1. -/
theorem download_attachment_spec_witness :
    download_attachment [] "/tmp" "report.pdf" = "/tmp/report.pdf" ∧
    download_attachment ["/tmp/report.pdf"] "/tmp" "report.pdf" = "/tmp/report_1.pdf" ∧
    ("/tmp/report.pdf" : String) ≠ "/tmp/report_1.pdf" := by
  have h := (download_attachment_spec [] "/tmp" "report.pdf").2 (by simp) (by simp)
  have e0 : candidate "/tmp" "report.pdf" 0 = "/tmp/report.pdf" := by decide
  have e1 : candidate "/tmp" "report.pdf" 1 = "/tmp/report_1.pdf" := by decide
  refine ⟨?_, ?_, ?_⟩
  · rw [← e0]
    exact h.1
  · rw [← e1, ← e0]
    exact h.2.1
  · rw [← e0, ← e1]
    exact h.2.2
